import Mathlib

/-!
Shallow embedding of the oneHR Telegram-bot location/attendance core.

Conventions used throughout:
* timestamps are UTC milliseconds modelled as `Int` (the TypeScript code stores
  ISO-8601 strings and compares them through dayjs, which is order- and
  difference-isomorphic to the millisecond clock);
* JavaScript numbers are modelled as `ℚ` (exact real-number semantics);
* nullable values are `Option`;
* `dayjs.diff(-, 'minute')` truncates toward zero, which is `Int.tdiv`;
* external library functions (JSON.parse, dayjs calendar day-of-month,
  timezone hour formatting, UUID generation, the database) are passed in as
  parameters of the embedded functions.
-/

/-- List lookup by index, `none` when out of bounds (JS `a[i]` on a dense array). -/
def getIdx {α : Type} : List α → Nat → Option α
  | [], _ => none
  | a :: _, 0 => some a
  | _ :: t, n + 1 => getIdx t n

/-- JS array assignment `a[i] = v`: sets index `i`, padding with holes
(`none`) when `i` is beyond the current length. -/
def setIdx {α : Type} : List (Option α) → Nat → Option α → List (Option α)
  | [], 0, v => [v]
  | [], n + 1, v => none :: setIdx [] n v
  | _ :: t, 0, v => v :: t
  | h :: t, n + 1, v => h :: setIdx t n v

/-- JS indexing on a possibly-sparse array: a hole and an out-of-bounds index
both read as `undefined`. -/
def jsIdx {α : Type} (l : List (Option α)) (i : Nat) : Option α :=
  (getIdx l i).getD none

/-- Whether `needle` occurs at the head of `hay`. -/
def startsWithL : List Char → List Char → Bool
  | [], _ => true
  | _ :: _, [] => false
  | a :: as, b :: bs => a == b && startsWithL as bs

/-- Whether `needle` occurs contiguously anywhere in `hay`
(JS `String.prototype.includes`). -/
def containsL (needle : List Char) : List Char → Bool
  | [] => needle.isEmpty
  | c :: rest => startsWithL needle (c :: rest) || containsL needle (c :: rest).tail

/-- JS `s.includes(sub)`. -/
def strContains (s sub : String) : Bool :=
  containsL sub.data s.data

/-- Whether the string trims to the empty string
(JS `s.trim() === ''`, used by the monitor for the missing-working-area skip). -/
def jsBlank (s : String) : Bool :=
  s.data.all (fun c => c == ' ' || c == '\t' || c == '\n' || c == '\r')

/-- Difference of two millisecond clocks in whole minutes; dayjs
`now.diff(past, 'minute')` truncates toward zero. -/
def jsDiffMinutes (now past : Int) : Int :=
  (now - past).tdiv 60000

/-- JSON values, the result of `JSON.parse`. -/
inductive Json where
  | null
  | bool (b : Bool)
  | num (q : ℚ)
  | str (s : String)
  | arr (elems : List Json)
  | obj (fields : List (String × Json))

/-- Structural check for one coordinate: a 2-element array of numbers
(`Array.isArray(coord) && coord.length === 2 && typeof coord[0] === 'number'
&& typeof coord[1] === 'number'` in `parseWorkingArea`). -/
def coordB : Json → Bool
  | .arr [.num _, .num _] => true
  | _ => false

/-- Structural check for one ring: an array of at least 3 valid coordinates. -/
def ringB : Json → Bool
  | .arr cs => decide (3 ≤ cs.length) && cs.all coordB
  | _ => false

/-- Structural check for one polygon: a non-empty array of valid rings. -/
def polyB : Json → Bool
  | .arr rs => !rs.isEmpty && rs.all ringB
  | _ => false

/-- Core of `parseWorkingArea` after `JSON.parse` succeeded: auto-wrap the
single-polygon shape, then validate every polygon; `none` on any structural
violation. The wrap test is the source's
`parsed.length === 1 && Array.isArray(parsed[0]) && parsed[0].length > 0 &&
Array.isArray(parsed[0][0])`. -/
def parseWorkingAreaJson (j : Json) : Option (List Json) :=
  match j with
  | .arr ps =>
    if ps.isEmpty then none
    else
      let wrapped : Bool :=
        match ps with
        | [.arr (c :: _)] => (match c with | .arr _ => true | _ => false)
        | _ => false
      let polygons := if wrapped then [j] else ps
      if polygons.all polyB then some polygons else none
  | _ => none

/-- Full `parseWorkingArea`: `JSON.parse` (an external library, passed in as
`jsonParse`; `none` models a parse exception caught by the `try`/`catch`)
followed by the structural validation. -/
def parseWorkingArea (jsonParse : String → Option Json) (s : String) : Option (List Json) :=
  match jsonParse s with
  | none => none
  | some j => parseWorkingAreaJson j

/-- One iteration of the ray-casting loop of `isPointInPolygon`: edge from
`(xj, yj)` (previous vertex) to `(xi, yi)` (current vertex) toggles the
`inside` flag when the scanline crosses it.  The division is only evaluated
when `yi ≠ yj`, so rational division is exact here. -/
def rayStep (x y : ℚ) (inside : Bool) (e : (ℚ × ℚ) × (ℚ × ℚ)) : Bool :=
  let xi := e.1.1
  let yi := e.1.2
  let xj := e.2.1
  let yj := e.2.2
  if (decide (yi > y) != decide (yj > y)) &&
      decide (x < (xj - xi) * (y - yi) / (yj - yi) + xi) then
    !inside
  else
    inside

/-- Ray-casting point-in-ring test (`isPointInPolygon`).  The source iterates
`i` over the vertices with `j` the previous index (starting at `n-1`), which
is the list zipped with its own right-rotation. -/
def isPointInPolygon (point : ℚ × ℚ) (polygon : List (ℚ × ℚ)) : Bool :=
  match polygon.getLast? with
  | none => false
  | some pl =>
    (polygon.zip (pl :: polygon.dropLast)).foldl (rayStep point.1 point.2) false

/-- First element of a polygon when it is a non-empty array whose head is an
array (the source's guard `outerRing && Array.isArray(outerRing) &&
outerRing.length > 0` on `polygon[0]`). -/
def outerRingOf : Json → Option (List Json)
  | .arr (.arr (c :: cs) :: _) => some (c :: cs)
  | _ => none

/-- Revalidation of a single coordinate while walking the outer ring
(`Array.isArray(coord) && coord.length === 2 && ...` in
`isPointInMultiPolygon`). -/
def toPair : Json → Option (ℚ × ℚ)
  | .arr [.num a, .num b] => some (a, b)
  | _ => none

/-- Multi-polygon containment (`isPointInMultiPolygon`): test the outer ring of
each polygon in turn, stopping at the first hit; a malformed coordinate inside
an outer ring aborts the whole test with `false`. -/
def isPointInMultiPolygon (point : ℚ × ℚ) : List Json → Bool
  | [] => false
  | polygon :: rest =>
    match outerRingOf polygon with
    | none => isPointInMultiPolygon point rest
    | some cs =>
      match cs.mapM toPair with
      | none => false
      | some ring =>
        if isPointInPolygon point ring then true else isPointInMultiPolygon point rest

/-- Employee `currentLocation` record (models `EmployeeCurrentLocation`). -/
structure CurrentLocation where
  latitude : ℚ
  longitude : ℚ
  accuracy : Option ℚ
  heading : Option ℚ
  speed : Option ℚ
  source : String
  isLive : Bool
  updatedAt : Int
  liveMessageId : Option String
  liveChatId : Option String
  liveUntil : Option Int
  endedAt : Option Int
deriving DecidableEq

/-- Validator failure kinds.  The TypeScript verdict carries only a message
string; each constructor here tags one `return` site of the validator so that
the spec's kind vocabulary can be related to the message strings the monitor
actually matches on. -/
inductive ErrorKind where
  | NO_LOCATION
  | SHARING_ENDED
  | STALE_LOCATION
  | NOT_LIVE
  | OUTSIDE_AREA
  | BAD_WORKING_AREA
deriving DecidableEq

/-- Validation verdict (`LocationValidationResult`), instrumented with the
`kind` of the producing return site. -/
structure Verdict where
  isValid : Bool
  error : Option String
  kind : Option ErrorKind
  accuracy : Option ℚ
  coordinates : Option (ℚ × ℚ)
  locationAge : Option Int
  isLive : Option Bool

def noLocationMsg : String :=
  "No location data available. Please share your location first."

def sharingEndedMsg : String :=
  "Location sharing has ended. Please share your location again."

def staleMsgA : String := "Location data is too old ("

def staleMsgB : String := " minutes). Please update your location."

/-- Stale-location message with the interpolated age. -/
def staleMsg (age : Int) : String := staleMsgA ++ toString age ++ staleMsgB

def badAreaMsg : String :=
  "Invalid working area configuration. Please contact your administrator."

def outsideAreaMsg : String :=
  "You are outside your designated working area. Clock in/out is only allowed within your assigned work location."

def notLiveMsg : String :=
  "Location sharing is not active. Please share your live location."

def liveExpiredMsg : String :=
  "Live location sharing has expired. Please share your location again."

/-- Effective liveness: `employeeLocation.isLive && (!employeeLocation.liveUntil
|| now.isBefore(dayjs.utc(employeeLocation.liveUntil)))`. -/
def effectiveIsLive (now : Int) (l : CurrentLocation) : Bool :=
  l.isLive && (match l.liveUntil with
               | none => true
               | some u => decide (now < u))

/-- JS `x || 0` on a nullable number (0 maps to 0 either way). -/
def jsOrZero (a : Option ℚ) : ℚ := a.getD 0

/-- The monitor's validator `validateEmployeeLocationAndArea`. -/
def validateEmployeeLocationAndArea (jsonParse : String → Option Json) (now : Int)
    (loc : Option CurrentLocation) (workingArea : String) (maxAgeMinutes : Int) : Verdict :=
  match loc with
  | none =>
    ⟨false, some noLocationMsg, some .NO_LOCATION, none, none, none, none⟩
  | some l =>
    if l.endedAt.isSome then
      ⟨false, some sharingEndedMsg, some .SHARING_ENDED, none, none, none, none⟩
    else
      let ageMinutes := jsDiffMinutes now l.updatedAt
      if effectiveIsLive now l then
        let coordinates := (l.longitude, l.latitude)
        match parseWorkingArea jsonParse workingArea with
        | none =>
          ⟨false, some badAreaMsg, some .BAD_WORKING_AREA, some (jsOrZero l.accuracy),
            some coordinates, some ageMinutes, some true⟩
        | some parsedArea =>
          if isPointInMultiPolygon coordinates parsedArea then
            ⟨true, none, none, some (jsOrZero l.accuracy), some coordinates,
              some ageMinutes, some true⟩
          else
            ⟨false, some outsideAreaMsg, some .OUTSIDE_AREA, some (jsOrZero l.accuracy),
              some coordinates, some ageMinutes, some true⟩
      else
        if ageMinutes > maxAgeMinutes then
          ⟨false, some (staleMsg ageMinutes), some .STALE_LOCATION, none, none,
            some ageMinutes, some false⟩
        else
          ⟨false, some notLiveMsg, some .NOT_LIVE, some (jsOrZero l.accuracy),
            some (l.longitude, l.latitude), some ageMinutes, some false⟩

/-- The clock-in/out validator `validateEmployeeLocation` (no working-area
test; stale check first, then live-expiry).  The expiry return site has no
monitor kind (the monitor never consumes this function), so `kind := none`
there. -/
def validateEmployeeLocation (now : Int) (loc : Option CurrentLocation)
    (maxAgeMinutes : Int) : Verdict :=
  match loc with
  | none =>
    ⟨false, some noLocationMsg, some .NO_LOCATION, none, none, none, none⟩
  | some l =>
    if l.endedAt.isSome then
      ⟨false, some sharingEndedMsg, some .SHARING_ENDED, none, none, none, none⟩
    else
      let ageMinutes := jsDiffMinutes now l.updatedAt
      if ageMinutes > maxAgeMinutes then
        ⟨false, some (staleMsg ageMinutes), some .STALE_LOCATION, none, none,
          some ageMinutes, if l.isLive then some true else none⟩
      else
        match l.isLive, l.liveUntil with
        | true, some u =>
          if now > u then
            ⟨false, some liveExpiredMsg, none, none, none, some ageMinutes, some false⟩
          else
            ⟨true, none, none, some (jsOrZero l.accuracy),
              some (l.longitude, l.latitude), some ageMinutes,
              if l.isLive then some true else none⟩
        | _, _ =>
          ⟨true, none, none, some (jsOrZero l.accuracy),
            some (l.longitude, l.latitude), some ageMinutes,
            if l.isLive then some true else none⟩

/-- The boolean helper `hasValidLocation`. -/
def hasValidLocation (now : Int) (loc : Option CurrentLocation)
    (maxAgeMinutes : Int) : Bool :=
  match loc with
  | none => false
  | some l =>
    if l.endedAt.isSome then false
    else
      let ageMinutes := jsDiffMinutes now l.updatedAt
      if ageMinutes > maxAgeMinutes then false
      else
        match l.isLive, l.liveUntil with
        | true, some u => !(decide (now > u))
        | _, _ => true

/-- One clock-in/clock-out entry (`WorkedHoursModel`). -/
structure WorkedHoursEntry where
  id : String
  timestamp : Int
  type : String
  hour : String
deriving DecidableEq

/-- One day of the attendance sheet (`DailyAttendance`).  The source fields
`from`/`to` are rendered `fromTime`/`toTime` (`from` is a Lean keyword). -/
structure DailyAttendance where
  id : String
  day : Nat
  value : Option String
  timestamp : Int
  fromTime : Option Int
  toTime : Option Int
  status : String
  dailyWorkedHours : ℚ
  workedHours : List WorkedHoursEntry
deriving DecidableEq

/-- The stored `values` field as Firestore may deliver it: either a dense
(possibly holey) array or a map-like object with string keys. -/
inductive AttendanceValues where
  | arr (xs : List (Option DailyAttendance))
  | map (kvs : List (String × DailyAttendance))

/-- Attendance document (`AttendanceModel`, fields used by the monitor). -/
structure AttendanceModel where
  id : String
  uid : String
  monthlyWorkedHours : ℚ
  lastClockInTimestamp : Option Int
  values : AttendanceValues

/-- Decimal digits at the head of the character list. -/
def takeDigits (cs : List Char) : List Char :=
  cs.takeWhile (fun c => c.isDigit)

/-- Numeric value of a digit run. -/
def natOfDigits (ds : List Char) : Nat :=
  ds.foldl (fun n c => n * 10 + (c.toNat - 48)) 0

/-- Model of JS `parseInt(s, 10)`: skip leading whitespace, optional sign,
then the longest decimal digit run; `none` models `NaN` (no digits). -/
def parseInt10 (s : String) : Option Int :=
  let cs := s.data.dropWhile (fun c => c == ' ' || c == '\t' || c == '\n' || c == '\r')
  match cs with
  | '-' :: rest =>
    (match takeDigits rest with
     | [] => none
     | ds => some (-(natOfDigits ds : Int)))
  | '+' :: rest =>
    (match takeDigits rest with
     | [] => none
     | ds => some (natOfDigits ds : Int))
  | other =>
    (match takeDigits other with
     | [] => none
     | ds => some (natOfDigits ds : Int))

/-- One step of the map-normalization fold of `normalizeAttendanceValues`:
`arr[idx] = v` for entries whose parsed key is in `[0, 31)`, everything else
ignored. -/
def normStep (acc : List (Option DailyAttendance)) (kv : String × DailyAttendance) :
    List (Option DailyAttendance) :=
  match parseInt10 kv.1 with
  | some idx => if 0 ≤ idx ∧ idx < 31 then setIdx acc idx.toNat (some kv.2) else acc
  | none => acc

/-- The mutator's `normalizeAttendanceValues`: an array is passed through;
a map-like object is folded into a sparse array, keeping entries whose
parsed key is in `[0, 31)` at that index. -/
def normalizeAttendanceValues : AttendanceValues → List (Option DailyAttendance)
  | .arr xs => xs
  | .map kvs => kvs.foldl normStep []

/-- JS read `attendance.values[i]` as the dedup check performs it, without
normalization: numeric indexing of an array, or string-keyed access when the
store delivered a map (JS coerces the index to its decimal string). -/
def rawDayLookup (v : AttendanceValues) (i : Nat) : Option DailyAttendance :=
  match v with
  | .arr xs => jsIdx xs i
  | .map kvs => (kvs.find? (fun kv => kv.1 == toString i)).map (fun kv => kv.2)

/-- Timestamp of the most recent Clock-Out entry of a day:
`workedHours.filter(type === 'Clock Out').sort(desc)[0]` keeps the entry with
the maximal timestamp, and only its timestamp is consumed. -/
def latestClockOutTs (d : Option DailyAttendance) : Option Int :=
  match d with
  | none => none
  | some day =>
    ((day.workedHours.filter (fun wh => wh.type == "Clock Out")).map
      (fun wh => wh.timestamp)).foldl (fun acc ts =>
        match acc with
        | none => some ts
        | some m => some (max m ts)) none

/-- The document update written by `performAutoClockOut`.
`monthlyWorkedHours` is `Option ℚ` because JS arithmetic with an invalid
clock-in date produces `NaN`, modelled as `none`. -/
structure AttendanceUpdate where
  values : List (Option DailyAttendance)
  monthlyWorkedHours : Option ℚ
  lastClockInTimestamp : Option Int
  lastChanged : Int
deriving DecidableEq

/-- Fresh `DailyAttendance` created when the clock-in day has no entry yet. -/
def freshDay (uuidDay : String) (dayIdx : Nat) (ts : Int) : DailyAttendance :=
  ⟨uuidDay, dayIdx + 1, none, ts, none, none, "N/A", 0, []⟩

/-- Pure core of `performAutoClockOut`: builds the single document update.
`dom` is dayjs `.date()` (UTC day of month, an external calendar function),
`fmtHour` the timezone hour formatter, `uuidEntry`/`uuidDay` the two
`crypto.randomUUID()` draws.  When `lastClockInTimestamp` is null the source
computes with an invalid date: the day index and the worked hours are `NaN`,
the array assignment at index `NaN` leaves the array elements untouched, and
`monthlyWorkedHours + NaN` is `NaN` (modelled `none`); no error is returned. -/
def performAutoClockOutData (dom : Int → Nat) (fmtHour : Int → String)
    (uuidEntry uuidDay : String) (att : AttendanceModel) (now : Int) : AttendanceUpdate :=
  let baseValues := normalizeAttendanceValues att.values
  match att.lastClockInTimestamp with
  | some t =>
    let clockInDayIndex := dom t - 1
    let hoursWorked : ℚ := ((now - t : Int) : ℚ) / 3600000
    let existingDay := jsIdx baseValues clockInDayIndex
    let workedHours :=
      (match existingDay with | some d => d.workedHours | none => []) ++
        [⟨uuidEntry, now, "Clock Out", fmtHour now⟩]
    let dailyWorkedHours :=
      (match existingDay with | some d => d.dailyWorkedHours | none => 0) + hoursWorked
    let base := existingDay.getD (freshDay uuidDay clockInDayIndex now)
    let updatedDay : DailyAttendance :=
      { base with
        workedHours := workedHours
        dailyWorkedHours := dailyWorkedHours
        value := some "A"
        status := "Submitted"
        timestamp := now }
    { values := setIdx baseValues clockInDayIndex (some updatedDay)
      monthlyWorkedHours := some (att.monthlyWorkedHours + hoursWorked)
      lastClockInTimestamp := none
      lastChanged := now }
  | none =>
    { values := baseValues
      monthlyWorkedHours := none
      lastClockInTimestamp := none
      lastChanged := now }

/-- Outcome of `performAutoClockOut` including the store interaction. -/
inductive ClockOutOutcome where
  | ok (update : AttendanceUpdate)
  | dbUnavailable
  | writeFailed
deriving DecidableEq

/-- Full `performAutoClockOut`: fails fast when the project database handle is
missing, otherwise computes the update and attempts the single document write
(`dbWriteOk` models whether the retried update ultimately succeeded). -/
def performAutoClockOutService (dom : Int → Nat) (fmtHour : Int → String)
    (uuidEntry uuidDay : String) (dbAvailable dbWriteOk : Bool)
    (att : AttendanceModel) (now : Int) : ClockOutOutcome :=
  if !dbAvailable then .dbUnavailable
  else if dbWriteOk then .ok (performAutoClockOutData dom fmtHour uuidEntry uuidDay att now)
  else .writeFailed

/-- Monitor configuration (compiled-in constants of the service). -/
def CHECK_INTERVAL_MINUTES : Int := 5

def MAX_LOCATION_AGE_MINUTES : Int := 10

/-- The substrings `checkAndAutoClockOut` matches against the verdict message
to decide whether the failure triggers an auto-clock-out. -/
def triggerErrors : List String :=
  ["outside your designated working area",
   "Location sharing is not active",
   "Location sharing has ended",
   "Location data is too old"]

/-- The trigger gate: `validation.error` must be present and contain one of
the trigger substrings. -/
def shouldTrigger (error : Option String) : Bool :=
  match error with
  | none => false
  | some e => triggerErrors.any (fun t => strContains e t)

/-- The decision taken by `checkAndAutoClockOut` for one employee, before any
notification handling. -/
inductive MonitorDecision where
  | skipNoWorkingArea
  | withinArea
  | skipNotActionable
  | skipRecentClockOut
  | attemptClockOut
deriving DecidableEq

/-- Decision pipeline of `checkAndAutoClockOut`: missing working area, then
the validator, then the trigger gate, then the recent-clock-out dedup; only
`attemptClockOut` reaches `performAutoClockOut`. -/
def checkAndAutoClockOutDecision (jsonParse : String → Option Json) (dom : Int → Nat)
    (now : Int) (workingArea : String) (loc : Option CurrentLocation)
    (att : AttendanceModel) : MonitorDecision :=
  if jsBlank workingArea then .skipNoWorkingArea
  else
    let validation :=
      validateEmployeeLocationAndArea jsonParse now loc workingArea MAX_LOCATION_AGE_MINUTES
    if validation.isValid then .withinArea
    else if !(shouldTrigger validation.error) then .skipNotActionable
    else
      let lastClockOut :=
        att.lastClockInTimestamp.bind
          (fun t => latestClockOutTs (rawDayLookup att.values (dom t - 1)))
      match lastClockOut with
      | some ts =>
        if jsDiffMinutes now ts < CHECK_INTERVAL_MINUTES then .skipRecentClockOut
        else .attemptClockOut
      | none => .attemptClockOut

/-- In-memory live-session registry entry (`LiveEntry`). -/
structure LiveEntry where
  employeeId : String
  projectName : String
  liveUntilMs : Option Int
  lastUpdateMs : Int
deriving DecidableEq

/-- Grace window after the last live update (`LIVE_GRACE_MS`). -/
def LIVE_GRACE_MS : Int := 120000

/-- Whether the sweeper considers the entry over:
`now >= min(entry.liveUntilMs || +Infinity, entry.lastUpdateMs + LIVE_GRACE_MS)`.
JS `||` treats both `null` and `0` as absent. -/
def liveEntryExpired (now : Int) (e : LiveEntry) : Bool :=
  let staleEnd := e.lastUpdateMs + LIVE_GRACE_MS
  match e.liveUntilMs with
  | some d => if d == 0 then decide (now ≥ staleEnd) else decide (now ≥ min d staleEnd)
  | none => decide (now ≥ staleEnd)

/-- The employee-document finalization the sweeper attempts for an expired
entry (`currentLocation.isLive := false`, `currentLocation.endedAt := now`,
`lastChanged := now`). -/
structure EmployeeFinalize where
  employeeId : String
  projectName : String
  endedAt : Int
deriving DecidableEq

/-- One pass of the 60-second sweeper over the registry.  For every entry
whose threshold has passed, the database update is attempted (`dbOk` tells
whether it succeeded, covering both a missing handle and a failed write) and
the entry is deleted in the `finally` block — that is, unconditionally.
Result: the surviving registry and the successfully applied finalizations. -/
def sweepStep (dbOk : String → Bool) (now : Int)
    (reg : List (String × LiveEntry)) :
    List (String × LiveEntry) × List EmployeeFinalize :=
  (reg.filter (fun p => !(liveEntryExpired now p.2)),
   (reg.filter (fun p => liveEntryExpired now p.2 && dbOk p.1)).map
     (fun p => ⟨p.2.employeeId, p.2.projectName, now⟩))

/-- Registry key `` `${chatId}:${messageId}` ``. -/
def makeLiveKey (chatId messageId : Int) : String :=
  toString chatId ++ ":" ++ toString messageId

/-- Registry read (`liveSessions.get(key)`). -/
def regGet (reg : List (String × LiveEntry)) (k : String) : Option LiveEntry :=
  (reg.find? (fun p => p.1 == k)).map (fun p => p.2)

/-- Registry write (`liveSessions.set(key, e)`). -/
def regSet (reg : List (String × LiveEntry)) (k : String) (e : LiveEntry) :
    List (String × LiveEntry) :=
  if reg.any (fun p => p.1 == k) then
    reg.map (fun p => if p.1 == k then (k, e) else p)
  else
    reg ++ [(k, e)]

/-- Telegram location payload as consumed by `saveEmployeeLocation`
(`horizontal_accuracy`, `heading`, `speed` may be absent or non-numeric,
modelled `none`). -/
structure TgLocation where
  latitude : ℚ
  longitude : ℚ
  horizontalAccuracy : Option ℚ
  heading : Option ℚ
  speed : Option ℚ

/-- The no-known-duration path of `saveEmployeeLocation`'s registry upsert:
an existing entry is refreshed, an unseen key seen through an edited message
starts an unknown-duration session, anything else is a static share.
Returns `((isLive, liveUntilMs), registry)`. -/
def saveLocFallback (now : Int) (reg : List (String × LiveEntry)) (key : String)
    (employeeId projectName : String) (isEdit : Bool) :
    (Bool × Option Int) × List (String × LiveEntry) :=
  match regGet reg key with
  | some e => ((true, e.liveUntilMs), regSet reg key { e with lastUpdateMs := now })
  | none =>
    if isEdit then
      ((true, none), regSet reg key ⟨employeeId, projectName, none, now⟩)
    else
      ((false, none), reg)

/-- Pure core of `saveEmployeeLocation`: the registry upsert and the
`currentLocation` record the ingestion path writes (always with
`endedAt = null`).  JS `liveUntilMs ? iso : null` maps a `0` timestamp to
null. Returns the written location and the updated registry; the history-log
append carries no state consumed by the claims. -/
def saveEmployeeLocationCompute (now : Int) (reg : List (String × LiveEntry))
    (employeeId projectName : String) (chatId messageId : Int)
    (loc : TgLocation) (livePeriodSeconds : Option Int) (isEdit : Bool) :
    CurrentLocation × List (String × LiveEntry) :=
  let key := makeLiveKey chatId messageId
  let upsert :=
    match livePeriodSeconds with
    | some s =>
      if s > 0 then
        ((true, some (now + s * 1000)),
          regSet reg key ⟨employeeId, projectName, some (now + s * 1000), now⟩)
      else saveLocFallback now reg key employeeId projectName isEdit
    | none => saveLocFallback now reg key employeeId projectName isEdit
  let isLive := upsert.1.1
  let liveUntil :=
    match upsert.1.2 with
    | some v => if v == 0 then none else some v
    | none => none
  ({ latitude := loc.latitude
     longitude := loc.longitude
     accuracy := loc.horizontalAccuracy
     heading := loc.heading
     speed := loc.speed
     source := if isLive then "telegram_live" else "telegram"
     isLive := isLive
     updatedAt := now
     liveMessageId := some (toString messageId)
     liveChatId := some (toString chatId)
     liveUntil := liveUntil
     endedAt := none }, upsert.2)

/-- Field patch applied by the sweeper's finalization to the employee's
`currentLocation`. -/
def finalizeCurrentLocation (ts : Int) (l : CurrentLocation) : CurrentLocation :=
  { l with isLive := false, endedAt := some ts }

/-- C10: for every pair (location, maxAgeMinutes) and clock value, the boolean
helper `hasValidLocation` returns `true` exactly when `validateEmployeeLocation`
returns a verdict with `isValid = true`. -/
theorem hasValidLocation_agrees_with_validateEmployeeLocation
    (now : Int) (loc : Option CurrentLocation) (maxAgeMinutes : Int) :
    hasValidLocation now loc maxAgeMinutes =
      (validateEmployeeLocation now loc maxAgeMinutes).isValid := by
  cases loc with
  | none => rfl
  | some l =>
    rcases l with ⟨lat, lng, acc, hd, sp, src, isLive, upd, lmid, lcid, lu, ea⟩
    cases ea <;> cases isLive <;> cases lu <;>
      simp only [hasValidLocation, validateEmployeeLocation, Option.isSome] <;>
      split_ifs <;> simp_all

/-- C9: both write sites of `currentLocation` keep the invariant
`isLive implies endedAt = null`: the ingestion path always writes
`endedAt = null` whatever `isLive` is, and the sweeper's finalization patch
sets `isLive = false` in the same update that sets `endedAt`. -/
theorem currentLocation_writes_preserve_live_invariant :
    (∀ (now : Int) (reg : List (String × LiveEntry)) (employeeId projectName : String)
        (chatId messageId : Int) (loc : TgLocation) (lps : Option Int) (isEdit : Bool),
        (saveEmployeeLocationCompute now reg employeeId projectName chatId messageId
            loc lps isEdit).1.endedAt = none) ∧
    (∀ (ts : Int) (l : CurrentLocation),
        (finalizeCurrentLocation ts l).isLive = false ∧
          (finalizeCurrentLocation ts l).endedAt = some ts) :=
  ⟨fun _ _ _ _ _ _ _ _ _ => rfl, fun _ _ => ⟨rfl, rfl⟩⟩

/-- Registry entry used to exercise the sweeper: its live period elapsed at
clock 1000 while the grace window is still far away. -/
def sweeperEntry : LiveEntry := ⟨"emp-1", "projA", some 1000, 0⟩

/-- C1 counterexample: the sweeper decides the entry is over (now = 1000 is
past `min(liveUntilMs, lastUpdateMs + 120000) = 1000`), the database update
fails (`dbOk` is constantly false), and the entry is nevertheless gone from
the registry after the pass — the `finally` block deletes it unconditionally,
so the claimed retry on the next tick cannot happen. -/
theorem sweeper_failed_update_entry_removed_counterexample :
    ¬ (("5:7", sweeperEntry) ∈
        (sweepStep (fun _ => false) 1000 [("5:7", sweeperEntry)]).1) := by
  decide

/-- C1 amended: after a sweeper pass an entry survives exactly when it was
present and not yet over; expired entries are removed whether or not the
finalization write succeeded (`dbOk` does not occur on the right-hand side). -/
theorem sweeper_removes_expired_entries_unconditionally
    (dbOk : String → Bool) (now : Int) (reg : List (String × LiveEntry))
    (k : String) (e : LiveEntry) :
    (k, e) ∈ (sweepStep dbOk now reg).1 ↔
      ((k, e) ∈ reg ∧ liveEntryExpired now e = false) := by
  simp [sweepStep, List.mem_filter]

/-- C2: `performAutoClockOut` contains no null guard on
`lastClockInTimestamp`.  On an attendance document with a null clock-in it
does not return the claimed `NO_PRIOR_CLOCKIN` error; the write proceeds and
stores a `NaN` (`none`) monthly total — the invalid-date arithmetic flows
into the document instead of being rejected. -/
theorem performAutoClockOut_null_clockin_writes_anyway
    (dom : Int → Nat) (fmtHour : Int → String) (uuidEntry uuidDay : String)
    (att : AttendanceModel) (now : Int)
    (h : att.lastClockInTimestamp = none) :
    performAutoClockOutService dom fmtHour uuidEntry uuidDay true true att now =
      .ok ⟨normalizeAttendanceValues att.values, none, none, now⟩ := by
  simp [performAutoClockOutService, performAutoClockOutData, h]

/-- Attendance document with a null clock-in used by the C2 witness. -/
def nullClockInAtt : AttendanceModel := ⟨"a1", "u1", 7, none, .arr []⟩

/-- Witness for C2: at a concrete never-clocked-in document the mutator
reports success and writes `monthlyWorkedHours = NaN`. -/
theorem performAutoClockOut_null_clockin_writes_anyway_witness :
    nullClockInAtt.lastClockInTimestamp = none ∧
    performAutoClockOutService (fun _ => 1) (fun _ => "h") "e" "d" true true
        nullClockInAtt 0 = .ok ⟨[], none, none, 0⟩ :=
  ⟨rfl, performAutoClockOut_null_clockin_writes_anyway _ _ _ _ _ _ rfl⟩

/-- JSON coordinate pair. -/
def coordJ (a b : ℚ) : Json := .arr [.num a, .num b]

/-- Unit-square ring `[(0,0),(1,0),(1,1),(0,1)]`. -/
def unitSquareRing : Json := .arr [coordJ 0 0, coordJ 1 0, coordJ 1 1, coordJ 0 1]

/-- Single polygon holding the unit-square ring. -/
def unitSquarePoly : Json := .arr [unitSquareRing]

/-- The centre of the unit square is inside the parsed working area; this
evaluates the ray-casting loop at a concrete input (the scanline crosses the
two vertical edges, toggling the flag once before the right edge hits). -/
theorem unitSquare_contains_center :
    isPointInMultiPolygon (1/2, 1/2) [unitSquarePoly] = true := by
  norm_num [isPointInMultiPolygon, outerRingOf, toPair, unitSquarePoly, unitSquareRing,
    coordJ, isPointInPolygon, rayStep, List.mapM, List.mapM.loop, List.foldl, List.zip,
    List.zipWith, List.dropLast, List.getLast?]

/-- C4: the monitor validator applies its checks in first-match-wins order.
Part one: a present location with `endedAt = null`, effective liveness true,
and coordinates inside the parsed working area is valid whatever its age and
whatever `maxAgeMinutes` is.  Part two: a `STALE_LOCATION` verdict can only
arise when effective liveness is false. -/
theorem validator_live_inside_valid_and_stale_only_if_not_live :
    (∀ (jp : String → Option Json) (now : Int) (l : CurrentLocation)
        (wa : String) (maxAge : Int) (mp : List Json),
        l.endedAt = none →
        effectiveIsLive now l = true →
        parseWorkingArea jp wa = some mp →
        isPointInMultiPolygon (l.longitude, l.latitude) mp = true →
        (validateEmployeeLocationAndArea jp now (some l) wa maxAge).isValid = true) ∧
    (∀ (jp : String → Option Json) (now : Int) (loc : Option CurrentLocation)
        (wa : String) (maxAge : Int) (l : CurrentLocation),
        loc = some l →
        (validateEmployeeLocationAndArea jp now loc wa maxAge).kind =
          some ErrorKind.STALE_LOCATION →
        effectiveIsLive now l = false) := by
  constructor
  · intro jp now l wa maxAge mp hend heff hparse hin
    simp [validateEmployeeLocationAndArea, hend, heff, hparse, hin]
  · intro jp now loc wa maxAge l hloc hkind
    subst hloc
    cases hb : effectiveIsLive now l
    · rfl
    · exfalso
      by_cases hend : l.endedAt.isSome
      · simp [validateEmployeeLocationAndArea, hend] at hkind
      · simp only [validateEmployeeLocationAndArea, hend, hb] at hkind
        rcases hp : parseWorkingArea jp wa with _ | mp <;> rw [hp] at hkind
        · simp at hkind
        · by_cases hin : isPointInMultiPolygon (l.longitude, l.latitude) mp = true
          · simp [hin] at hkind
          · rw [Bool.not_eq_true] at hin
            simp [hin] at hkind

/-- Live location at the centre of the unit square whose data is extremely
old (`updatedAt = 0`), used by the C4 witness. -/
def liveCenterLoc : CurrentLocation :=
  ⟨1/2, 1/2, none, none, none, "telegram_live", true, 0, none, none, none, none⟩

/-- Witness for C4: at clock 10^9 ms the location is more than 16000 minutes
old, far beyond `maxAgeMinutes = 10`, yet the verdict is valid because the
live branch never consults the age. -/
theorem validator_live_inside_valid_witness :
    liveCenterLoc.endedAt = none ∧
    effectiveIsLive 1000000000 liveCenterLoc = true ∧
    parseWorkingArea (fun _ => some unitSquarePoly) "area" = some [unitSquarePoly] ∧
    isPointInMultiPolygon (liveCenterLoc.longitude, liveCenterLoc.latitude)
      [unitSquarePoly] = true ∧
    (validateEmployeeLocationAndArea (fun _ => some unitSquarePoly) 1000000000
        (some liveCenterLoc) "area" 10).isValid = true :=
  ⟨rfl, rfl, rfl, unitSquare_contains_center,
    validator_live_inside_valid_and_stale_only_if_not_live.1
      (fun _ => some unitSquarePoly) 1000000000 liveCenterLoc "area" 10
      [unitSquarePoly] rfl rfl rfl unitSquare_contains_center⟩

/-- A needle matching at the head of a list also matches at the head of any
extension of that list. -/
theorem startsWithL_append (n a b : List Char) (h : startsWithL n a = true) :
    startsWithL n (a ++ b) = true := by
  induction n generalizing a with
  | nil => rfl
  | cons x xs ih =>
    cases a with
    | nil => exact absurd h (by simp [startsWithL])
    | cons y ys =>
      simp only [startsWithL, Bool.and_eq_true] at h ⊢
      exact ⟨h.1, ih ys h.2⟩

/-- A head match is in particular an occurrence. -/
theorem containsL_of_startsWithL (n h : List Char) (hs : startsWithL n h = true) :
    containsL n h = true := by
  cases h with
  | nil =>
    cases n with
    | nil => rfl
    | cons x xs => exact absurd hs (by simp [startsWithL])
  | cons c rest => simp [containsL, hs]

/-- The stale-location message contains the trigger substring for every
interpolated age, because the substring is a prefix of the constant head of
the message. -/
theorem shouldTrigger_stale (age : Int) : shouldTrigger (some (staleMsg age)) = true := by
  have hc : strContains (staleMsg age) "Location data is too old" = true := by
    apply containsL_of_startsWithL
    show startsWithL _ (staleMsgA ++ toString age ++ staleMsgB).data = true
    rw [String.data_append, String.data_append, List.append_assoc]
    exact startsWithL_append _ _ _ (by decide)
  simp [shouldTrigger, triggerErrors, hc]

/-- The spec's actionable verdict kinds. -/
def actionableKind (k : Option ErrorKind) : Prop :=
  k = some ErrorKind.OUTSIDE_AREA ∨ k = some ErrorKind.NOT_LIVE ∨
    k = some ErrorKind.SHARING_ENDED ∨ k = some ErrorKind.STALE_LOCATION

/-- The substring gate of the monitor agrees with the actionability partition
on every verdict the validator can produce. -/
theorem trigger_iff_actionable (jp : String → Option Json) (now : Int)
    (loc : Option CurrentLocation) (wa : String) (maxAge : Int) :
    shouldTrigger (validateEmployeeLocationAndArea jp now loc wa maxAge).error = true ↔
      ((validateEmployeeLocationAndArea jp now loc wa maxAge).isValid = false ∧
        actionableKind (validateEmployeeLocationAndArea jp now loc wa maxAge).kind) := by
  cases loc with
  | none =>
    simp [validateEmployeeLocationAndArea, actionableKind, shouldTrigger,
      triggerErrors, strContains]
    decide
  | some l =>
    by_cases hend : l.endedAt.isSome
    · simp only [validateEmployeeLocationAndArea, hend, if_true]
      simp [actionableKind]
      decide
    · simp only [validateEmployeeLocationAndArea, hend, Bool.false_eq_true, if_false]
      cases hlive : effectiveIsLive now l
      · simp only [Bool.false_eq_true, if_false]
        by_cases hage : jsDiffMinutes now l.updatedAt > maxAge
        · simp [hage, actionableKind, shouldTrigger_stale]
        · simp only [hage, if_false]
          simp [actionableKind]
          decide
      · simp only [if_true]
        rcases hp : parseWorkingArea jp wa with _ | mp
        · simp [actionableKind]
          decide
        · by_cases hin : isPointInMultiPolygon (l.longitude, l.latitude) mp = true
          · simp [hin, shouldTrigger]
          · rw [Bool.not_eq_true] at hin
            simp [hin, actionableKind]
            decide

/-- C3: the monitor triggers an auto-clock-out attempt exactly on the
actionable kinds.  Part one: the substring gate passes exactly when the
verdict is invalid with kind in `{OUTSIDE_AREA, NOT_LIVE, SHARING_ENDED,
STALE_LOCATION}` — in particular `NO_LOCATION` and `BAD_WORKING_AREA` never
pass and so never cause an attendance mutation.  Part two: at the decision
level, an employee proceeds past the gate (to the clock-out stage, where only
the recent-clock-out dedup can still defer it) exactly when the working area
is non-blank and the verdict is invalid with an actionable kind. -/
theorem monitor_attempts_exactly_on_actionable_kinds :
    (∀ (jp : String → Option Json) (now : Int) (loc : Option CurrentLocation)
        (wa : String) (maxAge : Int),
        shouldTrigger (validateEmployeeLocationAndArea jp now loc wa maxAge).error = true ↔
          ((validateEmployeeLocationAndArea jp now loc wa maxAge).isValid = false ∧
            actionableKind (validateEmployeeLocationAndArea jp now loc wa maxAge).kind)) ∧
    (∀ (jp : String → Option Json) (dom : Int → Nat) (now : Int) (wa : String)
        (loc : Option CurrentLocation) (att : AttendanceModel),
        (checkAndAutoClockOutDecision jp dom now wa loc att =
            MonitorDecision.attemptClockOut ∨
          checkAndAutoClockOutDecision jp dom now wa loc att =
            MonitorDecision.skipRecentClockOut) ↔
          (jsBlank wa = false ∧
            (validateEmployeeLocationAndArea jp now loc wa
                MAX_LOCATION_AGE_MINUTES).isValid = false ∧
            actionableKind (validateEmployeeLocationAndArea jp now loc wa
                MAX_LOCATION_AGE_MINUTES).kind)) := by
  refine ⟨trigger_iff_actionable, ?_⟩
  intro jp dom now wa loc att
  cases hb : jsBlank wa
  · by_cases hv : (validateEmployeeLocationAndArea jp now loc wa
        MAX_LOCATION_AGE_MINUTES).isValid = true
    · simp [checkAndAutoClockOutDecision, hb, hv]
    · rw [Bool.not_eq_true] at hv
      by_cases ht : shouldTrigger (validateEmployeeLocationAndArea jp now loc wa
          MAX_LOCATION_AGE_MINUTES).error = true
      · constructor
        · intro _
          exact ⟨rfl, (trigger_iff_actionable jp now loc wa
            MAX_LOCATION_AGE_MINUTES).mp ht⟩
        · intro _
          rcases hl : att.lastClockInTimestamp.bind
              (fun t => latestClockOutTs (rawDayLookup att.values (dom t - 1))) with _ | ts
          · left
            simp [checkAndAutoClockOutDecision, hb, hv, ht, hl]
          · by_cases hd : jsDiffMinutes now ts < CHECK_INTERVAL_MINUTES
            · right
              simp [checkAndAutoClockOutDecision, hb, hv, ht, hl, hd]
            · left
              simp [checkAndAutoClockOutDecision, hb, hv, ht, hl, hd]
      · have hna : ¬ ((validateEmployeeLocationAndArea jp now loc wa
            MAX_LOCATION_AGE_MINUTES).isValid = false ∧
            actionableKind (validateEmployeeLocationAndArea jp now loc wa
              MAX_LOCATION_AGE_MINUTES).kind) :=
          fun hh => ht ((trigger_iff_actionable jp now loc wa
            MAX_LOCATION_AGE_MINUTES).mpr hh)
      -- the gate fails, so the decision is skipNotActionable and both sides are false
        rw [Bool.not_eq_true] at ht
        simp only [checkAndAutoClockOutDecision, hb, hv, ht]
        simp only [Bool.false_eq_true, if_false, Bool.not_false, if_true]
        constructor
        · rintro (h | h) <;> exact absurd h (by decide)
        · rintro ⟨-, -, hact⟩
          exact absurd ⟨hv, hact⟩ hna
  · simp [checkAndAutoClockOutDecision, hb]

/-- C6: the dedup guard in `checkAndAutoClockOut` prevents a second
auto-clock-out within one check interval: when the most recent Clock-Out
entry on the clock-in's day is younger than `CHECK_INTERVAL_MINUTES`, the
monitor's decision is never the mutation attempt, so at most one
auto-clock-out is written to the same attendance document inside a window
shorter than the interval. -/
theorem monitor_skips_recent_clockout
    (jp : String → Option Json) (dom : Int → Nat) (now : Int) (wa : String)
    (loc : Option CurrentLocation) (att : AttendanceModel) (ts : Int)
    (hl : att.lastClockInTimestamp.bind
        (fun t => latestClockOutTs (rawDayLookup att.values (dom t - 1))) = some ts)
    (hd : jsDiffMinutes now ts < CHECK_INTERVAL_MINUTES) :
    checkAndAutoClockOutDecision jp dom now wa loc att ≠
      MonitorDecision.attemptClockOut := by
  intro hdec
  cases hb : jsBlank wa
  · by_cases hv : (validateEmployeeLocationAndArea jp now loc wa
        MAX_LOCATION_AGE_MINUTES).isValid = true
    · simp [checkAndAutoClockOutDecision, hb, hv] at hdec
    · rw [Bool.not_eq_true] at hv
      by_cases ht : shouldTrigger (validateEmployeeLocationAndArea jp now loc wa
          MAX_LOCATION_AGE_MINUTES).error = true
      · simp [checkAndAutoClockOutDecision, hb, hv, ht, hl, hd] at hdec
      · rw [Bool.not_eq_true] at ht
        simp [checkAndAutoClockOutDecision, hb, hv, ht] at hdec
  · simp [checkAndAutoClockOutDecision, hb] at hdec

/-- Day entry holding one Clock-Out at clock 600000, used by the C6 witness. -/
def recentClockOutDay : DailyAttendance :=
  ⟨"d7", 7, none, 0, none, none, "N/A", 0, [⟨"w1", 600000, "Clock Out", "10:10 AM"⟩]⟩

/-- Attendance document clocked in on day 7 with the recent clock-out. -/
def recentClockOutAtt : AttendanceModel :=
  ⟨"a4", "u4", 0, some 0,
    .arr [none, none, none, none, none, none, some recentClockOutDay]⟩

/-- Location whose sharing has ended, so the verdict is actionable
(`SHARING_ENDED`) in the C6 witness. -/
def endedLoc : CurrentLocation :=
  ⟨1/2, 1/2, none, none, none, "telegram_live", false, 0, none, none, none, some 500000⟩

/-- Witness for C6: one minute after the recorded clock-out the monitor does
not attempt another mutation on the same document. -/
theorem monitor_skips_recent_clockout_witness :
    recentClockOutAtt.lastClockInTimestamp.bind
        (fun t => latestClockOutTs (rawDayLookup recentClockOutAtt.values
          ((fun _ => 7) t - 1))) = some 600000 ∧
    jsDiffMinutes 660000 600000 < CHECK_INTERVAL_MINUTES ∧
    checkAndAutoClockOutDecision (fun _ => none) (fun _ => 7) 660000 "area"
        (some endedLoc) recentClockOutAtt ≠ MonitorDecision.attemptClockOut :=
  ⟨rfl, by decide,
    monitor_skips_recent_clockout (fun _ => none) (fun _ => 7) 660000 "area"
      (some endedLoc) recentClockOutAtt 600000 rfl (by decide)⟩

/-- Reading back the JS-assigned index always yields the written value. -/
theorem getIdx_setIdx_self {α : Type} (l : List (Option α)) (i : Nat) (v : Option α) :
    getIdx (setIdx l i v) i = some v := by
  induction i generalizing l with
  | zero => cases l <;> rfl
  | succ n ih =>
    cases l with
    | nil => exact ih []
    | cons h t => exact ih t

/-- C5: after a successful auto-clock-out on a document clocked in at `t`,
the written update has `lastClockInTimestamp = null`, the monthly total grew
by exactly the fractional hours between `t` and the clock-out instant, and
the day at index `dayOfMonth(t) - 1` ends with the fresh Clock-Out entry,
carries `value = "A"` and `status = "Submitted"`. -/
theorem autoClockOut_state_consistency
    (dom : Int → Nat) (fmtHour : Int → String) (uuidEntry uuidDay : String)
    (att : AttendanceModel) (now t : Int)
    (hclock : att.lastClockInTimestamp = some t) (hdom : 1 ≤ dom t) :
    (performAutoClockOutData dom fmtHour uuidEntry uuidDay att now).lastClockInTimestamp =
        none ∧
    (performAutoClockOutData dom fmtHour uuidEntry uuidDay att now).monthlyWorkedHours =
        some (att.monthlyWorkedHours + ((now - t : Int) : ℚ) / 3600000) ∧
    ∃ d : DailyAttendance,
      getIdx (performAutoClockOutData dom fmtHour uuidEntry uuidDay att now).values
          (dom t - 1) = some (some d) ∧
      d.workedHours.getLast? = some ⟨uuidEntry, now, "Clock Out", fmtHour now⟩ ∧
      d.value = some "A" ∧
      d.status = "Submitted" := by
  refine ⟨?_, ?_, ?_⟩
  · simp [performAutoClockOutData, hclock]
  · simp [performAutoClockOutData, hclock]
  · simp only [performAutoClockOutData, hclock]
    exact ⟨_, getIdx_setIdx_self _ _ _, List.getLast?_concat _, rfl, rfl⟩

/-- Empty attendance document clocked in at 0, used by the C5 witness. -/
def clockedInAtt : AttendanceModel := ⟨"a5", "u5", 5, some 0, .arr []⟩

/-- Witness for C5: a concrete auto-clock-out one hour after the clock-in. -/
theorem autoClockOut_state_consistency_witness :
    clockedInAtt.lastClockInTimestamp = some 0 ∧ 1 ≤ (fun _ : Int => 7) 0 ∧
    ((performAutoClockOutData (fun _ => 7) (fun _ => "4:00 AM") "e5" "d5"
        clockedInAtt 3600000).lastClockInTimestamp = none ∧
      (performAutoClockOutData (fun _ => 7) (fun _ => "4:00 AM") "e5" "d5"
          clockedInAtt 3600000).monthlyWorkedHours =
        some (clockedInAtt.monthlyWorkedHours + ((3600000 - 0 : Int) : ℚ) / 3600000) ∧
      ∃ d : DailyAttendance,
        getIdx (performAutoClockOutData (fun _ => 7) (fun _ => "4:00 AM") "e5" "d5"
            clockedInAtt 3600000).values ((fun _ : Int => 7) 0 - 1) = some (some d) ∧
        d.workedHours.getLast? = some ⟨"e5", 3600000, "Clock Out", "4:00 AM"⟩ ∧
        d.value = some "A" ∧
        d.status = "Submitted") :=
  ⟨rfl, by decide,
    autoClockOut_state_consistency (fun _ => 7) (fun _ => "4:00 AM") "e5" "d5"
      clockedInAtt 3600000 0 rfl (by decide)⟩

/-- JS array assignment never shrinks the array. -/
theorem length_le_setIdx {α : Type} (l : List (Option α)) (i : Nat) (v : Option α) :
    l.length ≤ (setIdx l i v).length := by
  induction i generalizing l with
  | zero => cases l <;> simp [setIdx]
  | succ n ih =>
    cases l with
    | nil => simp [setIdx]
    | cons h t => simpa [setIdx] using ih t

/-- An index that is present survives an assignment at a different index. -/
theorem getIdx_setIdx_ne {α : Type} (l : List (Option α)) (i j : Nat) (v x : Option α)
    (hne : i ≠ j) (h : getIdx l i = some x) :
    getIdx (setIdx l j v) i = some x := by
  induction j generalizing l i with
  | zero =>
    cases l with
    | nil => exact absurd h (by cases i <;> simp [getIdx])
    | cons hd t =>
      cases i with
      | zero => exact absurd rfl hne
      | succ m => exact h
  | succ n ih =>
    cases l with
    | nil => exact absurd h (by cases i <;> simp [getIdx])
    | cons hd t =>
      cases i with
      | zero => exact h
      | succ m => exact ih t m (fun hh => hne (by rw [hh])) h

/-- Whether a map entry lands on index `n` during normalization. -/
def normWrites (kv : String × DailyAttendance) (n : Nat) : Prop :=
  ∃ idx : Int, parseInt10 kv.1 = some idx ∧ 0 ≤ idx ∧ idx < 31 ∧ idx.toNat = n

/-- Entries that never write index `n` leave it untouched across the fold. -/
theorem getIdx_foldl_normStep_of_not_written
    (kvs : List (String × DailyAttendance)) (acc : List (Option DailyAttendance))
    (n : Nat) (x : Option DailyAttendance)
    (hnw : ∀ kv ∈ kvs, ¬ normWrites kv n) (h : getIdx acc n = some x) :
    getIdx (kvs.foldl normStep acc) n = some x := by
  induction kvs generalizing acc with
  | nil => exact h
  | cons kv rest ih =>
    refine ih (normStep acc kv) (fun kv' hm => hnw kv' (List.mem_cons_of_mem kv hm)) ?_
    rcases hp : parseInt10 kv.1 with _ | idx
    · have hstep : normStep acc kv = acc := by unfold normStep; rw [hp]
      rwa [hstep]
    · have hstep : normStep acc kv =
          (if 0 ≤ idx ∧ idx < 31 then setIdx acc idx.toNat (some kv.2) else acc) := by
        unfold normStep; rw [hp]
      rw [hstep]
      by_cases hin : 0 ≤ idx ∧ idx < 31
      · rw [if_pos hin]
        refine getIdx_setIdx_ne acc n idx.toNat (some kv.2) x ?_ h
        intro hh
        exact hnw kv (List.mem_cons_self kv rest) ⟨idx, hp, hin.1, hin.2, hh.symm⟩
      · rwa [if_neg hin]

/-- With pairwise-distinct parsed keys, every in-range entry of the map ends
up at its own index after the normalization fold. -/
theorem getIdx_foldl_normStep_written
    (kvs : List (String × DailyAttendance)) (acc : List (Option DailyAttendance))
    (k : String) (v : DailyAttendance) (idx : Int)
    (hnd : (kvs.map (fun kv => parseInt10 kv.1)).Nodup)
    (hm : (k, v) ∈ kvs) (hp : parseInt10 k = some idx)
    (h0 : 0 ≤ idx) (h31 : idx < 31) :
    getIdx (kvs.foldl normStep acc) idx.toNat = some (some v) := by
  induction kvs generalizing acc with
  | nil => exact absurd hm (List.not_mem_nil _)
  | cons kv rest ih =>
    rw [List.map_cons, List.nodup_cons] at hnd
    rcases List.mem_cons.mp hm with heq | hmem
    · subst heq
      show getIdx (rest.foldl normStep (normStep acc (k, v))) idx.toNat = some (some v)
      refine getIdx_foldl_normStep_of_not_written rest _ idx.toNat (some v) ?_ ?_
      · rintro kv' hm' ⟨idx', hp', h0', _, htn⟩
        have hidx : idx' = idx := by
          have := congrArg (fun n : Nat => (n : Int)) htn
          simpa [Int.toNat_of_nonneg h0', Int.toNat_of_nonneg h0] using this
        subst hidx
        exact hnd.1 (List.mem_map.mpr ⟨kv', hm', by rw [hp', hp]⟩)
      · have hstep : normStep acc (k, v) =
            (if 0 ≤ idx ∧ idx < 31 then setIdx acc idx.toNat (some v) else acc) := by
          unfold normStep; rw [hp]
        rw [hstep, if_pos ⟨h0, h31⟩]
        exact getIdx_setIdx_self _ _ _
    · exact ih (normStep acc kv) hnd.2 hmem

/-- C7 amended: when the stored `values` is an array the written array is at
least as long; when it is a map with pairwise-distinct numeric keys, every
entry whose key parses into `[0, 31)` and is not the clock-in day index
appears unchanged at that index — entries at out-of-range keys are dropped
and the clock-in day's slot holds the updated day instead, which is what the
counterexample forces the original claim to give up. -/
theorem autoClockOut_values_shape :
    (∀ (dom : Int → Nat) (fmtHour : Int → String) (u1 u2 : String)
        (att : AttendanceModel) (now : Int) (xs : List (Option DailyAttendance)),
        att.values = .arr xs →
        xs.length ≤ (performAutoClockOutData dom fmtHour u1 u2 att now).values.length) ∧
    (∀ (dom : Int → Nat) (fmtHour : Int → String) (u1 u2 : String)
        (att : AttendanceModel) (now t : Int)
        (kvs : List (String × DailyAttendance)) (k : String) (v : DailyAttendance)
        (idx : Int),
        att.values = .map kvs →
        att.lastClockInTimestamp = some t →
        (kvs.map (fun kv => parseInt10 kv.1)).Nodup →
        (k, v) ∈ kvs → parseInt10 k = some idx → 0 ≤ idx → idx < 31 →
        idx.toNat ≠ dom t - 1 →
        getIdx (performAutoClockOutData dom fmtHour u1 u2 att now).values idx.toNat =
          some (some v)) := by
  constructor
  · intro dom fmtHour u1 u2 att now xs hv
    rcases hcl : att.lastClockInTimestamp with _ | t
    · simp [performAutoClockOutData, hcl, hv, normalizeAttendanceValues]
    · simp only [performAutoClockOutData, hcl, hv, normalizeAttendanceValues]
      exact length_le_setIdx xs _ _
  · intro dom fmtHour u1 u2 att now t kvs k v idx hv hcl hnd hm hp h0 h31 hne
    simp only [performAutoClockOutData, hcl, hv, normalizeAttendanceValues]
    exact getIdx_setIdx_ne _ _ _ _ _ hne
      (getIdx_foldl_normStep_written kvs [] k v idx hnd hm hp h0 h31)

/-- Map entry stored under the numeric string key "31". -/
def droppedDay : DailyAttendance := ⟨"d31", 31, none, 0, none, none, "N/A", 0, []⟩

/-- Attendance document whose `values` is a map with the single numeric key
"31", clocked in at 0. -/
def mapKeyedAtt : AttendanceModel := ⟨"a6", "u6", 0, some 0, .map [("31", droppedDay)]⟩

/-- C7 counterexample: the stored `values` is a map with numeric string keys,
yet after the auto-clock-out the entry under key "31" does not appear at
index 31 of the written array — the normalization guard `idx < 31` drops it,
so the claimed map-to-array preservation fails as stated. -/
theorem autoClockOut_values_shape_counterexample :
    ¬ (getIdx (performAutoClockOutData (fun _ => 1) (fun _ => "h") "e6" "f6"
        mapKeyedAtt 0).values 31 = some (some droppedDay)) :=
  fun h => Option.noConfusion h

/-- Map entry stored under key "2", away from the clock-in day. -/
def keptDay : DailyAttendance := ⟨"g2", 3, none, 0, none, none, "N/A", 0, []⟩

/-- Attendance document with a map `values` whose key "2" survives. -/
def mapKeptAtt : AttendanceModel := ⟨"a7", "u7", 0, some 0, .map [("2", keptDay)]⟩

/-- Attendance document with a one-entry array `values`. -/
def arrKeptAtt : AttendanceModel := ⟨"a8", "u8", 0, some 0, .arr [some keptDay]⟩

/-- Witness for the amended C7: the array branch at a one-day array document
and the map branch at key "2" with clock-in day index 0. -/
theorem autoClockOut_values_shape_witness :
    (arrKeptAtt.values = .arr [some keptDay] ∧
      ([some keptDay] : List (Option DailyAttendance)).length ≤
        (performAutoClockOutData (fun _ => 7) (fun _ => "h") "e" "d"
          arrKeptAtt 0).values.length) ∧
    (mapKeptAtt.values = .map [("2", keptDay)] ∧
      mapKeptAtt.lastClockInTimestamp = some 0 ∧
      getIdx (performAutoClockOutData (fun _ => 1) (fun _ => "h") "e7" "f7"
        mapKeptAtt 0).values (2 : Int).toNat = some (some keptDay)) :=
  ⟨⟨rfl, autoClockOut_values_shape.1 (fun _ => 7) (fun _ => "h") "e" "d"
      arrKeptAtt 0 [some keptDay] rfl⟩,
    ⟨rfl, rfl, autoClockOut_values_shape.2 (fun _ => 1) (fun _ => "h") "e7" "f7"
      mapKeptAtt 0 0 [("2", keptDay)] "2" keptDay 2 rfl rfl
      (by simp) (List.mem_singleton.mpr rfl) rfl (by decide) (by decide) (by decide)⟩⟩

/-- Presence of a guarded parse result mirrors its guard. -/
theorem isSome_ite (b : Bool) (x : List Json) :
    (if b = true then some x else none).isSome = b := by
  cases b <;> rfl

/-- Computation of the parser on a one-element top-level array: the wrap
heuristic fires exactly when the element is itself a valid ring, so the
single-element case accepts exactly a single polygon with one ring. -/
theorem parse_single (r : Json) :
    (parseWorkingAreaJson (.arr [r])).isSome = ringB r := by
  cases r with
  | arr cs =>
    cases cs with
    | nil => rfl
    | cons c cs' =>
      cases c with
      | arr elems =>
        have h1 : parseWorkingAreaJson (.arr [Json.arr (Json.arr elems :: cs')]) =
            (if ([Json.arr [Json.arr (Json.arr elems :: cs')]] : List Json).all polyB = true
             then some [Json.arr [Json.arr (Json.arr elems :: cs')]] else none) := rfl
        rw [h1, isSome_ite]
        simp only [List.all_cons, List.all_nil, Bool.and_true, polyB, List.isEmpty_cons,
          Bool.not_false, Bool.true_and]
      | null =>
        simp [parseWorkingAreaJson, polyB, ringB, coordB, isSome_ite, -List.all_eq_true]
      | bool x =>
        simp [parseWorkingAreaJson, polyB, ringB, coordB, isSome_ite, -List.all_eq_true]
      | num x =>
        simp [parseWorkingAreaJson, polyB, ringB, coordB, isSome_ite, -List.all_eq_true]
      | str x =>
        simp [parseWorkingAreaJson, polyB, ringB, coordB, isSome_ite, -List.all_eq_true]
      | obj f =>
        simp [parseWorkingAreaJson, polyB, ringB, coordB, isSome_ite, -List.all_eq_true]
  | null => rfl
  | bool b => rfl
  | num q => rfl
  | str s => rfl
  | obj f => rfl

/-- Computation of the parser on a top-level array of two or more elements:
no wrapping happens and every element must be a valid polygon. -/
theorem parse_multi (a b : Json) (rest : List Json) :
    (parseWorkingAreaJson (.arr (a :: b :: rest))).isSome =
      (a :: b :: rest).all polyB := by
  cases a with
  | arr cs =>
    cases cs with
    | nil =>
      have h1 : parseWorkingAreaJson (.arr (Json.arr [] :: b :: rest)) =
          (if ((Json.arr [] :: b :: rest).all polyB) = true
           then some (Json.arr [] :: b :: rest) else none) := rfl
      rw [h1, isSome_ite]
    | cons c cs' =>
      have h1 : parseWorkingAreaJson (.arr (Json.arr (c :: cs') :: b :: rest)) =
          (if ((Json.arr (c :: cs') :: b :: rest).all polyB) = true
           then some (Json.arr (c :: cs') :: b :: rest) else none) := rfl
      rw [h1, isSome_ite]
  | null =>
    have h1 : parseWorkingAreaJson (.arr (Json.null :: b :: rest)) =
        (if ((Json.null :: b :: rest).all polyB) = true
         then some (Json.null :: b :: rest) else none) := rfl
    rw [h1, isSome_ite]
  | bool x =>
    have h1 : parseWorkingAreaJson (.arr (Json.bool x :: b :: rest)) =
        (if ((Json.bool x :: b :: rest).all polyB) = true
         then some (Json.bool x :: b :: rest) else none) := rfl
    rw [h1, isSome_ite]
  | num x =>
    have h1 : parseWorkingAreaJson (.arr (Json.num x :: b :: rest)) =
        (if ((Json.num x :: b :: rest).all polyB) = true
         then some (Json.num x :: b :: rest) else none) := rfl
    rw [h1, isSome_ite]
  | str x =>
    have h1 : parseWorkingAreaJson (.arr (Json.str x :: b :: rest)) =
        (if ((Json.str x :: b :: rest).all polyB) = true
         then some (Json.str x :: b :: rest) else none) := rfl
    rw [h1, isSome_ite]
  | obj f =>
    have h1 : parseWorkingAreaJson (.arr (Json.obj f :: b :: rest)) =
        (if ((Json.obj f :: b :: rest).all polyB) = true
         then some (Json.obj f :: b :: rest) else none) := rfl
    rw [h1, isSome_ite]

/-- Shape demanded by the claim's words: a single polygon (non-empty list of
rings, each ring at least 3 two-number coordinates) or a non-empty list of
such polygons. -/
def claimShapeB (j : Json) : Bool :=
  polyB j || (match j with
              | .arr ps => !ps.isEmpty && ps.all polyB
              | _ => false)

/-- Triangle ring with three valid coordinates. -/
def triRing : Json := .arr [coordJ 0 0, coordJ 1 0, coordJ 0 1]

/-- A list containing exactly one polygon of one valid ring. -/
def onePolyList : Json := .arr [.arr [triRing]]

/-- C8 counterexample: `[[triRing]]` is a valid list of polygons under the
claim's shape, yet the parser rejects it — the wrap heuristic fires on any
singleton whose head is a non-empty array, re-wraps the already-wrapped
polygon, and the re-wrapped value fails ring validation.  So parse success is
not equivalent to the claimed shape at this input. -/
theorem parseWorkingArea_claim_counterexample :
    ¬ ((parseWorkingAreaJson onePolyList).isSome = claimShapeB onePolyList) := by
  decide

/-- C8 amended: the parser returns a non-null multi-polygon exactly when the
input is a single polygon with exactly one ring (auto-wrapped), or a list of
at least two polygons, every polygon a non-empty list of rings of at least 3
two-number coordinates; a one-polygon list is rejected by the wrap
heuristic, as the counterexample forces. -/
theorem parseWorkingArea_accepts_exactly (j : Json) :
    (parseWorkingAreaJson j).isSome = true ↔
      ((∃ r, j = .arr [r] ∧ ringB r = true) ∨
        (∃ ps, j = .arr ps ∧ 2 ≤ ps.length ∧ ps.all polyB = true)) := by
  cases j with
  | arr ps =>
    rcases ps with _ | ⟨r, _ | ⟨b, rest⟩⟩
    · simp [parseWorkingAreaJson]
    · rw [parse_single r]
      constructor
      · intro hr
        exact Or.inl ⟨r, rfl, hr⟩
      · rintro (⟨r', hr', hb⟩ | ⟨ps', hp', hlen, _⟩)
        · injection hr' with h
          injection h with h1 _
          rw [h1, hb]
        · injection hp' with h
          rw [← h] at hlen
          simp at hlen
    · rw [parse_multi r b rest]
      constructor
      · intro hall
        exact Or.inr ⟨r :: b :: rest, rfl, by simp, hall⟩
      · rintro (⟨r', hr', _⟩ | ⟨ps', hp', _, hall⟩)
        · injection hr' with h
          simp at h
        · injection hp' with h
          rw [← h] at hall
          exact hall
  | null => simp [parseWorkingAreaJson]
  | bool b => simp [parseWorkingAreaJson]
  | num q => simp [parseWorkingAreaJson]
  | str s => simp [parseWorkingAreaJson]
  | obj f => simp [parseWorkingAreaJson]
